import Mathlib

/-!
Shallow embedding of the caching, prefetch, navigation and annotation logic
of the GoyalLab/plateviewer sources (`plateViewer.py`, `plateViewer_2.py`).

Python dictionaries are modelled as insertion-ordered association lists
(`dlookup`, `dinsert`, `ddelete`, `dictUpdate` mirror `d[k]`/`k in d`,
`d[k] = v`, `del d[k]`, `d.update(s)`).  Image decoding
(`PIL.Image.open(...).convert("L")` followed by `np.array`) is abstracted as
an oracle `dec : String → Option Img`: `some` is a successful decode of the
file at that path, `none` is the exception branch that makes
`cache_grayscale_image_as_numpy` return `None`.  Fallible source operations
(Python code that can raise) are modelled with `Option`: `none` stands for
the raised exception.
-/

/-- Python-dict membership lookup: first (and, under the nodup-key invariant,
only) value stored for a key. -/
def dlookup {α β : Type} [DecidableEq α] : List (α × β) → α → Option β
  | [], _ => none
  | (k, v) :: t, q => if k = q then some v else dlookup t q

/-- Python-dict assignment `d[k] = v`: replaces the value in place when the
key is present, otherwise appends at the end (insertion order). -/
def dinsert {α β : Type} [DecidableEq α] (d : List (α × β)) (k : α) (v : β) :
    List (α × β) :=
  if (dlookup d k).isSome then
    d.map (fun p => if p.1 = k then (k, v) else p)
  else d ++ [(k, v)]

/-- Python-dict deletion `del d[k]`. -/
def ddelete {α β : Type} [DecidableEq α] (d : List (α × β)) (k : α) :
    List (α × β) :=
  d.filter (fun p => !(decide (p.1 = k)))

/-- Python `d.update(s)`: assign every key of `s` into `d`, in order. -/
def dictUpdate {α β : Type} [DecidableEq α] (d s : List (α × β)) :
    List (α × β) :=
  s.foldl (fun acc kv => dinsert acc kv.1 kv.2) d

/-- Grayscale intensity plane, the result of
`np.array(Image.open(p).convert("L"))`: rows of 8-bit pixel values. -/
abbrev Img : Type := List (List Nat)

/-- One RGBA pixel of the synthesized overlay buffer. -/
structure RgbaPix where
  r : Nat
  g : Nat
  b : Nat
  a : Nat
deriving DecidableEq

/-- `np.zeros(..., dtype=np.uint8)` pixel. -/
def zeroPix : RgbaPix := { r := 0, g := 0, b := 0, a := 0 }

/-- The pure numeric transform inside `cache_gfp_overlay_as_numpy`
(plateViewer_2.py lines 31-39): start from a zero RGBA array, set
channel 1 (green) to the intensity and channel 3 (alpha) to 128. -/
def gfpTransform (img : Img) : List (List RgbaPix) :=
  img.map (fun row => row.map (fun v => { zeroPix with g := v, a := 128 }))

/-- `cache_grayscale_image_as_numpy` (plateViewer_2.py lines 16-23) under the
decode oracle `dec`; `none` is the caught-exception branch returning `None`. -/
def cache_grayscale_image_as_numpy (dec : String → Option Img)
    (image_path : String) : Option Img :=
  dec image_path

/-- `cache_gfp_overlay_as_numpy` (plateViewer_2.py lines 25-42): decode the
file as intensity, then synthesize the RGBA overlay; `none` when the decode
raises. -/
def cache_gfp_overlay_as_numpy (dec : String → Option Img)
    (image_path : String) : Option (List (List RgbaPix)) :=
  (dec image_path).map gfpTransform

/-- One parsed filename record, as built by `load_images`
(plateViewer_2.py lines 358-365). -/
structure ImageRecord where
  plate : String
  well : String
  timepoint : String
  path : String
  is_gfp : Bool
deriving DecidableEq

/-- A value stored in `thumbnail_cache`: either a grayscale plane or a
synthesized RGBA overlay. -/
inductive CachedImage where
  | gray : Img → CachedImage
  | rgba : List (List RgbaPix) → CachedImage
deriving DecidableEq

/-- The record filter `[d for d in image_data if d["plate"] == plate and
d["well"] == well]` used by `CachingThread.run` and `open_detail_view`. -/
def recordsFor (image_data : List ImageRecord) (plate well : String) :
    List ImageRecord :=
  image_data.filter (fun d => decide (d.plate = plate) && decide (d.well = well))

/-- First block of the `CachingThread.run` loop body (plateViewer_2.py
lines 97-101): cache the grayscale decode under the record's path if that
key is absent; a failed decode (`None`) stores nothing. -/
def cacheGrayStage (dec : String → Option Img)
    (cached : List (String × CachedImage)) (image : ImageRecord) :
    List (String × CachedImage) :=
  if (dlookup cached image.path).isSome then cached
  else
    match cache_grayscale_image_as_numpy dec image.path with
    | some img_array => cached ++ [(image.path, CachedImage.gray img_array)]
    | none => cached

/-- Second block of the `CachingThread.run` loop body (plateViewer_2.py
lines 103-109): for a GFP record, cache the overlay under
`path + "_overlay"` if that key is absent; a failed decode stores
nothing. -/
def cacheOverlayStage (dec : String → Option Img)
    (cached : List (String × CachedImage)) (image : ImageRecord) :
    List (String × CachedImage) :=
  if image.is_gfp then
    if (dlookup cached (image.path ++ "_overlay")).isSome then cached
    else
      match cache_gfp_overlay_as_numpy dec image.path with
      | some overlay_array =>
        cached ++ [(image.path ++ "_overlay", CachedImage.rgba overlay_array)]
      | none => cached
  else cached

/-- Loop body of `CachingThread.run` (plateViewer_2.py lines 96-109): the
grayscale block followed by the overlay block. -/
def cachingStep (dec : String → Option Img)
    (cached : List (String × CachedImage)) (image : ImageRecord) :
    List (String × CachedImage) :=
  cacheOverlayStage dec (cacheGrayStage dec cached image) image

/-- The dictionary `CachingThread.run` builds for one well
(plateViewer_2.py lines 92-112), i.e. the payload of its single
`finished.emit(cached_data)`. -/
def cachingRun (dec : String → Option Img) (image_data : List ImageRecord)
    (current_plate well : String) : List (String × CachedImage) :=
  (recordsFor image_data current_plate well).foldl (cachingStep dec) []

/-- The sequence of `finished` emissions produced by one execution of
`CachingThread.run`: the loop never raises (every decode failure is caught
inside the decoders) and the emit at line 112 is unconditional, so the run
always emits exactly its one result dictionary. -/
def cachingEmissions (dec : String → Option Img)
    (image_data : List ImageRecord) (current_plate well : String) :
    List (List (String × CachedImage)) :=
  [cachingRun dec image_data current_plate well]

/-- `update_thumbnail_cache` (plateViewer_2.py lines 491-492): the slot
connected to `CachingThread.finished`; merges the emitted dictionary into
`thumbnail_cache` via `dict.update`. -/
def update_thumbnail_cache {β : Type} [DecidableEq β]
    (thumbnail_cache cached_data : List (String × β)) : List (String × β) :=
  dictUpdate thumbnail_cache cached_data

/-- `self.cache_limit = 10` (plateViewer_2.py line 209). -/
def cache_limit : Nat := 10

/-- `add_to_thumbnail_cache` (plateViewer_2.py lines 705-710): when the cache
has reached `cache_limit`, pop `next(iter(dict))` — the first-inserted
entry — then assign the new key.  `none` models the `StopIteration` raised
by `next(iter({}))` on an empty dict. -/
def add_to_thumbnail_cache {β : Type} [DecidableEq β]
    (thumbnail_cache : List (String × β)) (path : String) (pix : β) :
    Option (List (String × β)) :=
  if cache_limit ≤ thumbnail_cache.length then
    match thumbnail_cache with
    | [] => none
    | _ :: rest => some (dinsert rest path pix)
  else some (dinsert thumbnail_cache path pix)

/-- The row-major well list `[f"{r}{c}" for r in "ABCDEFGH" for c in
range(1, 13)]` rebuilt locally by `preload_next_wells`, `go_to_prev_well`
and `go_to_next_well`. -/
def all_wells : List String :=
  "ABCDEFGH".toList.flatMap
    (fun r => (List.range 12).map (fun c => String.mk [r] ++ Nat.repr (c + 1)))

/-- The caching-relevant state of a `PlateViewer`: the keys of `well_cache`
(the only dedup marker), the current well, and the log of wells for which a
`CachingThread` has been started (one entry per `start_caching_thread`
call, in order). -/
structure ViewerState where
  well_cache : List String
  current_well : Option String
  dispatch_log : List String
deriving DecidableEq

/-- The fresh viewer state (`__init__`, plateViewer_2.py lines 203-208). -/
def initialViewer : ViewerState :=
  { well_cache := [], current_well := none, dispatch_log := [] }

/-- `start_caching_thread` (plateViewer_2.py lines 512-518): spawns a
`CachingThread` for the well; recorded here as one dispatch-log entry.  It
does not touch `well_cache`. -/
def start_caching_thread (s : ViewerState) (well : String) : ViewerState :=
  { s with dispatch_log := s.dispatch_log ++ [well] }

/-- `cache_well_images` (plateViewer_2.py lines 481-489): return if the well
is already in `well_cache`; otherwise mark it and start a caching thread. -/
def cache_well_images (s : ViewerState) (well : String) : ViewerState :=
  if well ∈ s.well_cache then s
  else
    start_caching_thread { s with well_cache := s.well_cache ++ [well] } well

/-- `preload_next_wells` (plateViewer_2.py lines 494-510): for offsets
`1..num_wells`, look up the row-major successor and start a caching thread
for it unless it is in `well_cache`.  Dispatches are not recorded in
`well_cache`. -/
def preload_next_wells (s : ViewerState) (num_wells : Nat) : ViewerState :=
  match s.current_well with
  | none => s
  | some w =>
    let idx := all_wells.indexOf w
    ((List.range num_wells).map (· + 1)).foldl
      (fun st offset =>
        if idx + offset < all_wells.length then
          match all_wells.get? (idx + offset) with
          | some next_well =>
            if next_well ∈ st.well_cache then st
            else start_caching_thread st next_well
          | none => st
        else st) s

/-- The caching/prefetch effects of `open_detail_view`
(plateViewer_2.py lines 440-479): set `current_well`, run
`cache_well_images(well)`, then (timer callback, line 479)
`preload_next_wells(num_wells=5)`. -/
def open_detail_view_caching (s : ViewerState) (well : String) : ViewerState :=
  preload_next_wells (cache_well_images { s with current_well := some well } well) 5

/-- Lexicographic Bool-valued comparison of char lists by code point. -/
def listLeb : List Char → List Char → Bool
  | [], _ => true
  | _ :: _, [] => false
  | c :: cs, d :: ds =>
    if c.toNat < d.toNat then true
    else if d.toNat < c.toNat then false
    else listLeb cs ds

/-- Python string comparison (lexicographic by code point). -/
def strLeb (a b : String) : Bool := listLeb a.toList b.toList

/-- Python `sorted` on strings: a stable sort by `strLeb`. -/
def pySorted (l : List String) : List String :=
  List.insertionSort (fun a b => strLeb a b = true) l

/-- Python `sorted(set(...))` over the timepoints of a record list. -/
def sortedTimepoints (records : List ImageRecord) : List String :=
  pySorted ((records.map (fun d => d.timepoint)).eraseDups)

/-- The timepoint selection of `open_detail_view` (plateViewer_2.py line
450 and plateViewer.py line 228):
`sorted(set(d["timepoint"] for d in plate_images))[0]`.  The `[0]` indexing
raises `IndexError` on an empty list, modelled as `none`. -/
def open_detail_view_timepoint (image_data : List ImageRecord)
    (current_plate well : String) : Option String :=
  (sortedTimepoints (recordsFor image_data current_plate well)).get? 0

/-- The wells for which `update_grid` (plateViewer_2.py lines 546-556)
creates a clickable button: every `f"{row}{j}"` for row in "ABCDEFGH" and
j in 1..12, independently of the loaded records. -/
def update_grid_buttons : List String :=
  "ABCDEFGH".toList.flatMap
    (fun row => (List.range 12).map (fun j => String.mk [row] ++ Nat.repr (j + 1)))

/-- `go_to_prev_well` (plateViewer_2.py lines 620-627): the well passed to
`open_detail_view`, or `none` when nothing happens (no current well, or the
current well is first). -/
def go_to_prev_well (current_well : Option String) : Option String :=
  match current_well with
  | none => none
  | some w =>
    let idx := all_wells.indexOf w
    if 0 < idx then all_wells.get? (idx - 1) else none

/-- `go_to_next_well` (plateViewer_2.py lines 629-636): the well passed to
`open_detail_view`, or `none` when nothing happens. -/
def go_to_next_well (current_well : Option String) : Option String :=
  match current_well with
  | none => none
  | some w =>
    let idx := all_wells.indexOf w
    if idx < all_wells.length - 1 then all_wells.get? (idx + 1) else none

/-- `toggle_checkmark` (plateViewer_2.py lines 386-397), state mutation
only: on `state = true` store the label under `(plate, well)`; on
`state = false` delete the stored annotation only when it equals `label`. -/
def toggle_checkmark (checked_wells : List ((String × String) × String))
    (key : String × String) (label : String) (state : Bool) :
    List ((String × String) × String) :=
  if state then dinsert checked_wells key label
  else
    if dlookup checked_wells key = some label then ddelete checked_wells key
    else checked_wells

/-- Pixel access into an intensity plane: `intensity[y][x]`. -/
def getPix (img : Img) (y x : Nat) : Option Nat :=
  (img.get? y).bind (fun row => row.get? x)

/-- Pixel access into a synthesized RGBA buffer: `overlay[y][x]`. -/
def getOvPix (ov : List (List RgbaPix)) (y x : Nat) : Option RgbaPix :=
  (ov.get? y).bind (fun row => row.get? x)

/-- Decode oracle for a concrete well folder with five timepoint files of
which `f3.tif` is unreadable (its decode raises). -/
def c3dec : String → Option Img :=
  fun p => if p = "f3.tif" then none else some [[10, 20], [30, 40]]

/-- Five grayscale records of one well, one of them (`f3.tif`) corrupt. -/
def c3data : List ImageRecord :=
  [ { plate := "PLATE1", well := "C7", timepoint := "00d04h00m", path := "f1.tif", is_gfp := false },
    { plate := "PLATE1", well := "C7", timepoint := "00d08h00m", path := "f2.tif", is_gfp := false },
    { plate := "PLATE1", well := "C7", timepoint := "00d12h00m", path := "f3.tif", is_gfp := false },
    { plate := "PLATE1", well := "C7", timepoint := "00d16h00m", path := "f4.tif", is_gfp := false },
    { plate := "PLATE1", well := "C7", timepoint := "00d20h00m", path := "f5.tif", is_gfp := false } ]

/-- Decode oracle that always succeeds with one fixed 2-by-2 plane. -/
def c4dec : String → Option Img := fun _ => some [[5, 200], [7, 0]]

/-- Decode oracle for two wells with one file each. -/
def c7dec : String → Option Img :=
  fun p => if p = "a1.tif" then some [[1]] else some [[2]]

/-- One grayscale record for well A1 and one for well A2 on the same
plate. -/
def c7data : List ImageRecord :=
  [ { plate := "P1", well := "A1", timepoint := "00d00h00m", path := "a1.tif", is_gfp := false },
    { plate := "P1", well := "A2", timepoint := "00d00h00m", path := "a2.tif", is_gfp := false } ]

/-- Eleven committed result sets from eleven distinct wells, one image
each: one more well than `cache_limit` allows. -/
def c2commits : List (List (String × Nat)) :=
  (List.range (cache_limit + 1)).map
    (fun i => [("well" ++ Nat.repr i ++ ".tif", i)])

/-- A thumbnail cache filled to exactly `cache_limit` entries, whose
first-inserted entry `p0.tif` is the image of the active well. -/
def demoCacheAtCapacity : List (String × Nat) :=
  (List.range cache_limit).map (fun i => ("p" ++ Nat.repr i ++ ".tif", i))

/-- Viewer state in which well A1 is the currently displayed well. -/
def c8state : ViewerState :=
  { well_cache := ["A1"], current_well := some "A1", dispatch_log := ["A1"] }

/-- The image record of the active well A1; its path is the first-inserted
key of `demoCacheAtCapacity`. -/
def c8activeRecord : ImageRecord :=
  { plate := "P1", well := "A1", timepoint := "00d00h00m", path := "p0.tif",
    is_gfp := false }

/-- An annotation map holding the label "singlet" for well A1. -/
def c10map : List ((String × String) × String) :=
  [(("PLATE1", "A1"), "singlet")]

/-! ## Association-list (Python dict) lemmas -/

theorem dlookup_append_of_none {α β : Type} [DecidableEq α]
    {a : List (α × β)} (b : List (α × β)) {q : α} (h : dlookup a q = none) :
    dlookup (a ++ b) q = dlookup b q := by
  induction a with
  | nil => rfl
  | cons hd tl ih =>
    simp only [dlookup] at h ⊢
    by_cases hk : hd.1 = q
    · rw [if_pos hk] at h; exact absurd h (by simp)
    · rw [if_neg hk] at h ⊢
      exact ih h

theorem dlookup_append_of_some {α β : Type} [DecidableEq α]
    {a : List (α × β)} (b : List (α × β)) {q : α} {v : β}
    (h : dlookup a q = some v) :
    dlookup (a ++ b) q = some v := by
  induction a with
  | nil => simp [dlookup] at h
  | cons hd tl ih =>
    simp only [dlookup] at h ⊢
    by_cases hk : hd.1 = q
    · rw [if_pos hk] at h ⊢; exact h
    · rw [if_neg hk] at h ⊢; exact ih h

theorem mem_keys_of_dlookup_isSome {α β : Type} [DecidableEq α]
    {d : List (α × β)} {q : α} (h : (dlookup d q).isSome = true) :
    q ∈ d.map Prod.fst := by
  induction d with
  | nil => simp [dlookup] at h
  | cons hd tl ih =>
    simp only [dlookup] at h
    by_cases hk : hd.1 = q
    · simp [hk.symm]
    · rw [if_neg hk] at h
      simp [ih h]

theorem dlookup_isSome_of_mem_keys {α β : Type} [DecidableEq α]
    {d : List (α × β)} {q : α} (h : q ∈ d.map Prod.fst) :
    (dlookup d q).isSome = true := by
  induction d with
  | nil => simp at h
  | cons hd tl ih =>
    simp only [dlookup]
    by_cases hk : hd.1 = q
    · rw [if_pos hk]; rfl
    · rw [if_neg hk]
      apply ih
      simp only [List.map_cons, List.mem_cons] at h
      rcases h with h | h
      · exact absurd h.symm hk
      · exact h

theorem dlookup_none_of_not_mem_keys {α β : Type} [DecidableEq α]
    {d : List (α × β)} {q : α} (h : q ∉ d.map Prod.fst) :
    dlookup d q = none := by
  cases hq : dlookup d q with
  | none => rfl
  | some v =>
    exact absurd (mem_keys_of_dlookup_isSome (by rw [hq]; rfl)) h

theorem not_mem_keys_of_dlookup_none {α β : Type} [DecidableEq α]
    {d : List (α × β)} {q : α} (h : dlookup d q = none) :
    q ∉ d.map Prod.fst := by
  intro hmem
  have := dlookup_isSome_of_mem_keys hmem
  rw [h] at this
  simp at this

theorem dlookup_map_replace_ne {α β : Type} [DecidableEq α]
    (d : List (α × β)) {k q : α} (v : β) (hne : q ≠ k) :
    dlookup (d.map (fun p => if p.1 = k then (k, v) else p)) q = dlookup d q := by
  induction d with
  | nil => rfl
  | cons hd tl ih =>
    simp only [List.map_cons]
    by_cases hk : hd.1 = k
    · rw [if_pos hk]
      simp only [dlookup]
      rw [if_neg (fun h => hne h.symm)]
      have hq : ¬ hd.1 = q := fun h => hne (hk ▸ h).symm
      rw [if_neg hq]
      exact ih
    · rw [if_neg hk]
      simp only [dlookup]
      by_cases hq : hd.1 = q
      · rw [if_pos hq, if_pos hq]
      · rw [if_neg hq, if_neg hq]
        exact ih

theorem dlookup_map_replace_self {α β : Type} [DecidableEq α]
    (d : List (α × β)) (k : α) (v : β) (hs : (dlookup d k).isSome = true) :
    dlookup (d.map (fun p => if p.1 = k then (k, v) else p)) k = some v := by
  induction d with
  | nil => simp [dlookup] at hs
  | cons hd tl ih =>
    simp only [List.map_cons]
    by_cases hk : hd.1 = k
    · rw [if_pos hk]
      simp [dlookup]
    · rw [if_neg hk]
      simp only [dlookup] at hs ⊢
      rw [if_neg hk] at hs ⊢
      exact ih hs

theorem dlookup_dinsert_self {α β : Type} [DecidableEq α]
    (d : List (α × β)) (k : α) (v : β) :
    dlookup (dinsert d k v) k = some v := by
  unfold dinsert
  by_cases hs : (dlookup d k).isSome = true
  · rw [if_pos hs]
    exact dlookup_map_replace_self d k v hs
  · rw [if_neg hs]
    have hnone : dlookup d k = none := by
      cases h : dlookup d k with
      | none => rfl
      | some w => rw [h] at hs; simp at hs
    rw [dlookup_append_of_none _ hnone]
    simp [dlookup]

theorem dlookup_dinsert_ne {α β : Type} [DecidableEq α]
    (d : List (α × β)) {k q : α} (v : β) (hne : q ≠ k) :
    dlookup (dinsert d k v) q = dlookup d q := by
  unfold dinsert
  by_cases hs : (dlookup d k).isSome = true
  · rw [if_pos hs]
    exact dlookup_map_replace_ne d v hne
  · rw [if_neg hs]
    cases hq : dlookup d q with
    | none =>
      rw [dlookup_append_of_none _ hq]
      simp only [dlookup]
      rw [if_neg (fun h => hne h.symm)]
    | some w => exact dlookup_append_of_some _ hq

theorem map_replace_keys {α β : Type} [DecidableEq α]
    (d : List (α × β)) (k : α) (v : β) :
    (d.map (fun p => if p.1 = k then (k, v) else p)).map Prod.fst
      = d.map Prod.fst := by
  induction d with
  | nil => rfl
  | cons hd tl ih =>
    simp only [List.map_cons, ih]
    by_cases hk : hd.1 = k
    · simp [if_pos hk, hk]
    · simp [if_neg hk]

theorem dinsert_keys_of_isSome {α β : Type} [DecidableEq α]
    {d : List (α × β)} {k : α} (v : β) (hs : (dlookup d k).isSome = true) :
    (dinsert d k v).map Prod.fst = d.map Prod.fst := by
  unfold dinsert
  rw [if_pos hs]
  exact map_replace_keys d k v

theorem keys_nodup_append_single {α β : Type} [DecidableEq α]
    {d : List (α × β)} {k : α} (v : β)
    (hN : (d.map Prod.fst).Nodup) (h : dlookup d k = none) :
    ((d ++ [(k, v)]).map Prod.fst).Nodup := by
  rw [List.map_append]
  rw [List.nodup_append]
  refine ⟨hN, by simp, ?_⟩
  intro x hx hy
  simp only [List.map_cons, List.map_nil, List.mem_cons, List.not_mem_nil, or_false] at hy
  subst hy
  exact not_mem_keys_of_dlookup_none h hx

theorem dinsert_keys_nodup {α β : Type} [DecidableEq α]
    {d : List (α × β)} (k : α) (v : β) (hN : (d.map Prod.fst).Nodup) :
    ((dinsert d k v).map Prod.fst).Nodup := by
  by_cases hs : (dlookup d k).isSome = true
  · rw [dinsert_keys_of_isSome v hs]; exact hN
  · unfold dinsert
    rw [if_neg hs]
    apply keys_nodup_append_single v hN
    cases h : dlookup d k with
    | none => rfl
    | some w => rw [h] at hs; simp at hs

theorem ddelete_keys_nodup {α β : Type} [DecidableEq α]
    {d : List (α × β)} (k : α) (hN : (d.map Prod.fst).Nodup) :
    ((ddelete d k).map Prod.fst).Nodup := by
  apply List.Nodup.sublist _ hN
  exact List.Sublist.map Prod.fst (List.filter_sublist d)

theorem dlookup_dictUpdate_of_disjoint {α β : Type} [DecidableEq α]
    (s : List (α × β)) :
    ∀ (d : List (α × β)) (q : α), (∀ kv ∈ s, kv.1 ≠ q) →
      dlookup (dictUpdate d s) q = dlookup d q := by
  induction s with
  | nil => intro d q _; rfl
  | cons hd tl ih =>
    intro d q h
    show dlookup (dictUpdate (dinsert d hd.1 hd.2) tl) q = dlookup d q
    rw [ih _ q (fun kv hm => h kv (List.mem_cons_of_mem hd hm))]
    exact dlookup_dinsert_ne d hd.2
      (fun hq => h hd (List.mem_cons_self hd tl) hq.symm)

theorem dlookup_dictUpdate_of_some {α β : Type} [DecidableEq α]
    (s : List (α × β)) :
    ∀ (d : List (α × β)) (q : α) (v : β), (s.map Prod.fst).Nodup →
      dlookup s q = some v → dlookup (dictUpdate d s) q = some v := by
  induction s with
  | nil => intro d q v _ h; simp [dlookup] at h
  | cons hd tl ih =>
    intro d q v hN h
    simp only [List.map_cons, List.nodup_cons] at hN
    simp only [dlookup] at h
    show dlookup (dictUpdate (dinsert d hd.1 hd.2) tl) q = some v
    by_cases hk : hd.1 = q
    · rw [if_pos hk] at h
      have hv : v = hd.2 := (Option.some.inj h).symm
      subst hv
      have hdisj : ∀ kv ∈ tl, kv.1 ≠ q := by
        intro kv hm hq
        apply hN.1
        rw [hk, ← hq]
        exact List.mem_map_of_mem Prod.fst hm
      rw [dlookup_dictUpdate_of_disjoint tl _ q hdisj, ← hk]
      exact dlookup_dinsert_self d hd.1 hd.2
    · rw [if_neg hk] at h
      exact ih _ q v hN.2 h

theorem dinsert_length_le {α β : Type} [DecidableEq α]
    (d : List (α × β)) (k : α) (v : β) :
    d.length ≤ (dinsert d k v).length := by
  unfold dinsert
  by_cases hs : (dlookup d k).isSome = true
  · rw [if_pos hs, List.length_map]
  · rw [if_neg hs, List.length_append]
    simp

theorem dictUpdate_length_le {α β : Type} [DecidableEq α]
    (d s : List (α × β)) :
    d.length ≤ (dictUpdate d s).length := by
  induction s generalizing d with
  | nil => exact Nat.le_refl _
  | cons hd tl ih =>
    simp only [dictUpdate, List.foldl_cons] at ih ⊢
    exact Nat.le_trans (dinsert_length_le d hd.1 hd.2) (ih _)

theorem isSome_false_eq_none {β : Type} {o : Option β}
    (hs : ¬ o.isSome = true) : o = none := by
  cases h : o with
  | none => rfl
  | some w => rw [h] at hs; simp at hs

theorem cacheGrayStage_keys_nodup (dec : String → Option Img)
    (cached : List (String × CachedImage)) (image : ImageRecord)
    (hN : (cached.map Prod.fst).Nodup) :
    ((cacheGrayStage dec cached image).map Prod.fst).Nodup := by
  unfold cacheGrayStage
  by_cases hs : (dlookup cached image.path).isSome = true
  · rw [if_pos hs]; exact hN
  · rw [if_neg hs]
    cases hdec : cache_grayscale_image_as_numpy dec image.path with
    | none => exact hN
    | some a => exact keys_nodup_append_single _ hN (isSome_false_eq_none hs)

theorem cacheOverlayStage_keys_nodup (dec : String → Option Img)
    (cached : List (String × CachedImage)) (image : ImageRecord)
    (hN : (cached.map Prod.fst).Nodup) :
    ((cacheOverlayStage dec cached image).map Prod.fst).Nodup := by
  unfold cacheOverlayStage
  cases hg : image.is_gfp with
  | false => exact hN
  | true =>
    simp only
    by_cases hs : (dlookup cached (image.path ++ "_overlay")).isSome = true
    · rw [if_pos hs]; exact hN
    · rw [if_neg hs]
      cases hdec : cache_gfp_overlay_as_numpy dec image.path with
      | none => exact hN
      | some a => exact keys_nodup_append_single _ hN (isSome_false_eq_none hs)

theorem cachingStep_keys_nodup (dec : String → Option Img)
    (cached : List (String × CachedImage)) (image : ImageRecord)
    (hN : (cached.map Prod.fst).Nodup) :
    ((cachingStep dec cached image).map Prod.fst).Nodup :=
  cacheOverlayStage_keys_nodup dec _ image
    (cacheGrayStage_keys_nodup dec cached image hN)

theorem foldl_cachingStep_keys_nodup (dec : String → Option Img)
    (records : List ImageRecord) :
    ∀ (acc : List (String × CachedImage)), (acc.map Prod.fst).Nodup →
      ((records.foldl (cachingStep dec) acc).map Prod.fst).Nodup := by
  induction records with
  | nil => intro acc h; exact h
  | cons hd tl ih =>
    intro acc h
    exact ih _ (cachingStep_keys_nodup dec acc hd h)

theorem cachingRun_keys_nodup (dec : String → Option Img)
    (image_data : List ImageRecord) (plate well : String) :
    ((cachingRun dec image_data plate well).map Prod.fst).Nodup :=
  foldl_cachingStep_keys_nodup dec _ [] (by simp)

/-! ## Claim theorems -/

set_option maxRecDepth 8000

/-- Claim C1 (code bug): the source does not dispatch at most one Load Task
per well.  `preload_next_wells` checks `well_cache` but never records its
dispatches there, so from a fresh viewer, `open_detail_view("A1")` (whose
prefetch dispatches a `CachingThread` for A2) followed by
`open_detail_view("A2")` starts a second `CachingThread` for A2: the
dispatch log counts well A2 twice. -/
theorem duplicate_load_task_dispatched :
    ((open_detail_view_caching (open_detail_view_caching initialViewer "A1")
        "A2").dispatch_log.count "A2") = 2 := by decide

/-- Claim C2 (counterexample): with capacity `cache_limit = 10`, committing
eleven distinct wells through the real commit path
(`update_thumbnail_cache`, the slot connected to `CachingThread.finished`)
does not leave `cache_limit` entries: no eviction happens on commit. -/
theorem commit_overruns_capacity :
    ¬ ((c2commits.foldl update_thumbnail_cache []).length = cache_limit) := by
  decide

/-- Claim C2 (amended): the commit path never evicts — the cache never
shrinks under `update_thumbnail_cache`, and after `cache_limit + 1`
distinct committed wells it holds all `cache_limit + 1` entries.  The only
capacity-enforcing routine, `add_to_thumbnail_cache`, is never invoked by
the loading pipeline; when called on a full cache it removes the
first-inserted entry (dict iteration order), not an oldest-`lastAccess`
entry — no access timestamp exists in the source. -/
theorem commit_never_evicts :
    (∀ (cache committed : List (String × Nat)),
      cache.length ≤ (update_thumbnail_cache cache committed).length)
    ∧ (c2commits.foldl update_thumbnail_cache []).length = cache_limit + 1
    ∧ add_to_thumbnail_cache demoCacheAtCapacity "q.tif" (99 : Nat)
        = some (dinsert (demoCacheAtCapacity.drop 1) "q.tif" 99) :=
  ⟨fun cache committed => dictUpdate_length_le cache committed,
   by decide, by decide⟩

/-- Claim C3: a dispatched `CachingThread.run` always completes and emits
its result dictionary exactly once regardless of decode failures, and on a
well with five files of which `f3.tif` is unreadable the committed result
holds exactly the four successfully decoded slots, with the failed slot
absent. -/
theorem caching_thread_commits_once_partial_results :
    (∀ (dec : String → Option Img) (image_data : List ImageRecord)
        (plate well : String),
      (cachingEmissions dec image_data plate well).length = 1)
    ∧ cachingRun c3dec c3data "PLATE1" "C7"
        = [("f1.tif", CachedImage.gray [[10, 20], [30, 40]]),
           ("f2.tif", CachedImage.gray [[10, 20], [30, 40]]),
           ("f4.tif", CachedImage.gray [[10, 20], [30, 40]]),
           ("f5.tif", CachedImage.gray [[10, 20], [30, 40]])]
    ∧ dlookup (cachingRun c3dec c3data "PLATE1" "C7") "f3.tif" = none :=
  ⟨fun _ _ _ _ => rfl, by decide, by decide⟩

/-- Claim C4: for every intensity plane produced by the decode oracle, the
overlay buffer synthesized by `cache_gfp_overlay_as_numpy` has, at every
pixel, green equal to the input intensity, alpha equal to the constant 128,
and red and blue zero. -/
theorem overlay_channels_correct (dec : String → Option Img) (p : String)
    (img : Img) (y x v : Nat) (hdec : dec p = some img)
    (hpix : getPix img y x = some v) :
    ∃ ov, cache_gfp_overlay_as_numpy dec p = some ov ∧
      getOvPix ov y x = some { r := 0, g := v, b := 0, a := 128 } := by
  refine ⟨gfpTransform img, ?_, ?_⟩
  · unfold cache_gfp_overlay_as_numpy
    rw [hdec]
    rfl
  · unfold getPix at hpix
    cases hy : img.get? y with
    | none => rw [hy] at hpix; simp at hpix
    | some row =>
      rw [hy] at hpix
      simp only [Option.some_bind] at hpix
      unfold getOvPix gfpTransform
      rw [List.get?_map, hy]
      simp [List.get?_map, zeroPix]
      simpa using hpix

/-- Claim C4 witness: the theorem applied to a concrete decode oracle and
the pixel (0, 1) of its 2-by-2 plane. -/
theorem overlay_channels_correct_witness :
    ∃ ov, cache_gfp_overlay_as_numpy c4dec "well.tif" = some ov ∧
      getOvPix ov 0 1 = some { r := 0, g := 200, b := 0, a := 128 } :=
  overlay_channels_correct c4dec "well.tif" [[5, 200], [7, 0]] 0 1 200 rfl rfl

/-- Claim C5: from a fresh viewer, opening A12 dispatches the load of A12
itself followed by background prefetch of exactly B1..B5; and for every
well of the plate, the dispatches of `open_detail_view` are the well itself
followed by the next five wells in row-major order, truncated at the last
well H12. -/
theorem prefetch_schedules_next_five :
    (open_detail_view_caching initialViewer "A12").dispatch_log
      = ["A12", "B1", "B2", "B3", "B4", "B5"]
    ∧ (all_wells.all (fun w =>
        decide ((open_detail_view_caching initialViewer w).dispatch_log
          = w :: (all_wells.drop (all_wells.indexOf w + 1)).take 5))) = true := by
  constructor
  · decide
  · decide

/-- Claim C6: navigating to the previous well at A1 and to the next well at
H12 are no-ops: `go_to_prev_well`/`go_to_next_well` invoke
`open_detail_view` on no well at all (no wraparound), leaving the current
well and view unchanged. -/
theorem advance_boundary_noop :
    go_to_prev_well (some "A1") = none ∧ go_to_next_well (some "H12") = none := by
  constructor
  · decide
  · decide

/-- Claim C7: committing two Load-Task result sets for different wells
(disjoint key sets) through `update_thumbnail_cache` loses nothing: every
slot of the first committed set and every slot of the second is retrievable
afterwards with its committed value. -/
theorem commit_no_lost_updates (dec : String → Option Img)
    (image_data : List ImageRecord) (plate wA wB : String)
    (cache : List (String × CachedImage))
    (hdisj : ∀ k ∈ (cachingRun dec image_data plate wA).map Prod.fst,
      dlookup (cachingRun dec image_data plate wB) k = none) :
    (∀ (k : String) (v : CachedImage),
        dlookup (cachingRun dec image_data plate wA) k = some v →
        dlookup (update_thumbnail_cache
          (update_thumbnail_cache cache (cachingRun dec image_data plate wA))
          (cachingRun dec image_data plate wB)) k = some v)
    ∧ (∀ (k : String) (v : CachedImage),
        dlookup (cachingRun dec image_data plate wB) k = some v →
        dlookup (update_thumbnail_cache
          (update_thumbnail_cache cache (cachingRun dec image_data plate wA))
          (cachingRun dec image_data plate wB)) k = some v) := by
  constructor
  · intro k v h
    unfold update_thumbnail_cache
    have hk : k ∈ (cachingRun dec image_data plate wA).map Prod.fst :=
      mem_keys_of_dlookup_isSome (by rw [h]; rfl)
    have hnone := hdisj k hk
    have hdisj2 : ∀ kv ∈ cachingRun dec image_data plate wB, kv.1 ≠ k := by
      intro kv hm hq
      have hmem := dlookup_isSome_of_mem_keys
        (hq ▸ List.mem_map_of_mem Prod.fst hm)
      rw [hnone] at hmem
      simp at hmem
    rw [dlookup_dictUpdate_of_disjoint _ _ _ hdisj2]
    exact dlookup_dictUpdate_of_some _ _ _ _
      (cachingRun_keys_nodup dec image_data plate wA) h
  · intro k v h
    unfold update_thumbnail_cache
    exact dlookup_dictUpdate_of_some _ _ _ _
      (cachingRun_keys_nodup dec image_data plate wB) h

/-- Claim C7 witness: interleaved commits from two workers on wells A1 and
A2; both committed slots are retrievable afterwards. -/
theorem commit_no_lost_updates_witness :
    dlookup (update_thumbnail_cache
      (update_thumbnail_cache ([] : List (String × CachedImage))
        (cachingRun c7dec c7data "P1" "A1"))
      (cachingRun c7dec c7data "P1" "A2")) "a1.tif"
      = some (CachedImage.gray [[1]])
    ∧ dlookup (update_thumbnail_cache
      (update_thumbnail_cache ([] : List (String × CachedImage))
        (cachingRun c7dec c7data "P1" "A1"))
      (cachingRun c7dec c7data "P1" "A2")) "a2.tif"
      = some (CachedImage.gray [[2]]) := by
  have h := commit_no_lost_updates c7dec c7data "P1" "A1" "A2" [] (by decide)
  exact ⟨h.1 "a1.tif" (CachedImage.gray [[1]]) (by decide),
         h.2 "a2.tif" (CachedImage.gray [[2]]) (by decide)⟩

/-- Claim C8 (counterexample): an eviction pass does remove the entry of
the currently displayed well.  With A1 active (`c8state`), the cache at
capacity and A1's image `p0.tif` as its first-inserted entry,
`add_to_thumbnail_cache` evicts exactly that entry: the routine never
consults the active well or any loading state. -/
theorem eviction_removes_active_well_entry :
    c8state.current_well = some c8activeRecord.well
    ∧ dlookup demoCacheAtCapacity c8activeRecord.path = some 0
    ∧ (add_to_thumbnail_cache demoCacheAtCapacity "q.tif" (99 : Nat)).map
        (fun c => dlookup c c8activeRecord.path) = some none := by
  refine ⟨by decide, by decide, by decide⟩

/-- Claim C8 (amended): `add_to_thumbnail_cache` — which the loading
pipeline never invokes — evicts exactly the first-inserted entry of a full
cache, regardless of which well is active or loading; every entry other
than the first-inserted one survives the pass. -/
theorem eviction_removes_first_inserted_only :
    add_to_thumbnail_cache demoCacheAtCapacity "q.tif" (99 : Nat)
      = some (dinsert (demoCacheAtCapacity.drop 1) "q.tif" 99)
    ∧ (((List.range cache_limit).drop 1).all (fun i =>
        decide ((add_to_thumbnail_cache demoCacheAtCapacity "q.tif" (99 : Nat)).map
          (fun c => (dlookup c ("p" ++ Nat.repr i ++ ".tif")).isSome)
          = some true))) = true := by
  constructor
  · decide
  · decide

/-- Claim C9: `open_detail_view` is not total — for any plate and well with
zero matching records its timepoint selection
`sorted(set(...))[0]` indexes an empty list (modelled as `none`, the raised
`IndexError`), while `update_grid` offers a clickable button for all 96
wells regardless of the records. -/
theorem open_detail_view_empty_well_not_total (image_data : List ImageRecord)
    (plate well : String) (h : recordsFor image_data plate well = []) :
    open_detail_view_timepoint image_data plate well = none
    ∧ update_grid_buttons.length = 96 := by
  constructor
  · unfold open_detail_view_timepoint sortedTimepoints
    rw [h]
    rfl
  · decide

/-- Claim C9 witness: a viewer with no records at all; opening well A1 of
plate PLATE1 hits the empty-list indexing. -/
theorem open_detail_view_empty_well_not_total_witness :
    open_detail_view_timepoint [] "PLATE1" "A1" = none
    ∧ update_grid_buttons.length = 96 :=
  open_detail_view_empty_well_not_total [] "PLATE1" "A1" rfl

/-- Claim C10: the annotation map keeps at most one label per
(plate, well) key — `toggle_checkmark` preserves key uniqueness — and
toggling OFF a label different from the stored one leaves the map
unchanged (deletion happens only when the stored label equals the toggled
label). -/
theorem toggle_checkmark_exclusive (checked : List ((String × String) × String))
    (key : String × String) (label stored : String) (state : Bool)
    (hN : (checked.map Prod.fst).Nodup)
    (hstored : dlookup checked key = some stored) (hne : stored ≠ label) :
    ((toggle_checkmark checked key label state).map Prod.fst).Nodup
    ∧ toggle_checkmark checked key label false = checked := by
  have hc : ¬ (dlookup checked key = some label) := by
    rw [hstored]
    intro hcontra
    exact hne (Option.some.inj hcontra)
  constructor
  · unfold toggle_checkmark
    cases state with
    | true => exact dinsert_keys_nodup key label hN
    | false =>
      simp only [Bool.false_eq_true, if_false]
      rw [if_neg hc]
      exact hN
  · unfold toggle_checkmark
    simp only [Bool.false_eq_true, if_false]
    rw [if_neg hc]

/-- Claim C10 witness: the map stores "singlet" for (PLATE1, A1); toggling
"doublet" off leaves it untouched and keys stay unique. -/
theorem toggle_checkmark_exclusive_witness :
    ((toggle_checkmark c10map ("PLATE1", "A1") "doublet" true).map Prod.fst).Nodup
    ∧ toggle_checkmark c10map ("PLATE1", "A1") "doublet" false = c10map :=
  toggle_checkmark_exclusive c10map ("PLATE1", "A1") "doublet" "singlet" true
    (by decide) (by decide) (by decide)
